import Mathlib

/-!
Shallow embedding of the event-ingestion and retention-derivation core of the
`backend-tech-task` repository (files `app/crud.py`, `app/cache.py`,
`app/models.py`, `app/analytics.py`, `app/redis_client.py`, `app/schemas.py`).

Modelling conventions:
* Timestamps are `Int` seconds; a calendar date is `Int` days, extracted by
  floor division (`Int.ediv`), mirroring Python `datetime → date` truncation.
* UUIDs are abstract values modelled as `Nat`; `schemas.Event.event_id` is a
  required `uuid.UUID` field (pydantic coerces/generates), so the
  `isinstance(event_id, str)` repair branches in `crud.py` are dead for inputs
  that passed the schema, and `event_id` is modelled as an already-valid UUID.
  Likewise `schemas.Event.occurred_at` is a required `datetime`, so the
  `... if event.occurred_at else date.today()` fallbacks always take the
  first branch; the embedding therefore uses a total `occurredAt`.
* Surrogate serial primary keys (`Event.id`, `User.id`, `UserRetention.id`)
  impose no constraint used by any claim and are omitted; tables are lists of
  rows in insertion order.
* A SQLAlchemy session is one in-flight transaction: functions thread the
  committed store (`DB`) explicitly; `db.rollback()` restores the state at the
  last commit; `db.commit()` makes the working state the new committed state.
* An uncaught Python exception is `Except.error`; `return x` is `Except.ok x`.
* The Redis cache is a connected-flag plus a list of keys; `delete_pattern`
  removes keys matching a glob pattern (all patterns used are prefix-globs).
-/

/-- Mirrors `schemas.Event` (pydantic input schema): `event_id : UUID`,
`occurred_at : datetime` (required), `user_id`, `event_type`, optional
`properties` (opaque JSON). -/
structure EventInput where
  eventId : Nat
  occurredAt : Int
  userId : String
  eventType : String
  properties : Option String
  deriving Repr, DecidableEq

/-- Row of the `events` table (`models.Event`), minus the surrogate serial id.
`event_id` carries a UNIQUE constraint. -/
structure EventRow where
  eventId : Nat
  occurredAt : Int
  userId : String
  eventType : String
  properties : Option String
  eventDate : Int
  deriving Repr, DecidableEq

/-- Row of the `users` table (`models.User`), minus the surrogate serial id.
`user_id` carries a UNIQUE constraint. -/
structure UserRow where
  userId : String
  name : String
  email : String
  isActive : Bool
  createdAt : Int
  updatedAt : Int
  deriving Repr, DecidableEq

/-- Row of the `user_retention` table (`models.UserRetention`), minus the
surrogate serial id.  The triple `(user_id, cohort_date, activity_date)`
carries a UNIQUE index (`ix_user_cohort_activity`). -/
structure RetentionRow where
  userId : String
  cohortDate : Int
  activityDate : Int
  retentionDay : Int
  deriving Repr, DecidableEq

/-- The committed relational store: the three tables the ingestion pipeline
writes. -/
structure DB where
  events : List EventRow
  users : List UserRow
  retention : List RetentionRow
  deriving Repr, DecidableEq

/-- The Redis cache (`redis_client.RedisClient`): connection flag plus the
set of present keys (values are irrelevant to the claims). -/
structure Cache where
  connected : Bool
  keys : List String
  deriving Repr, DecidableEq

/-- Python `timestamp → date`: floor division by 86400 seconds.  `Int.ediv`
has non-negative remainder for a positive divisor, i.e. floor division. -/
def dateOf (t : Int) : Int := Int.ediv t 86400

/-- `event.occurred_at.date()` — the denormalized `event_date` column. -/
def eventDateOf (e : EventInput) : Int := dateOf e.occurredAt

/-- The dict appended to `events_data` in `ingest_events`, and the
`models.Event(...)` constructed in the fallback path. -/
def mkRow (e : EventInput) : EventRow :=
  { eventId := e.eventId
    occurredAt := e.occurredAt
    userId := e.userId
    eventType := e.eventType
    properties := e.properties
    eventDate := eventDateOf e }

/-- Does the events table already hold a row with this `event_id`?
(The UNIQUE constraint on `events.event_id`.) -/
def hasEventId (evs : List EventRow) (id : Nat) : Bool :=
  evs.any (fun r => r.eventId == id)

/-- Duplicate values inside one list (a multi-row INSERT violating the
unique constraint against itself). -/
def dupWithin : List Nat → Bool
  | [] => false
  | x :: xs => xs.contains x || dupWithin xs

/-- `db.execute(insert(Event).values(events_data))` raises `IntegrityError`
iff some inserted `event_id` collides with an existing row or with another
row of the same statement; the multi-row INSERT is all-or-nothing. -/
def hasBatchConflict (existing : List EventRow) (rows : List EventRow) : Bool :=
  rows.any (fun r => hasEventId existing r.eventId) || dupWithin (rows.map (fun r => r.eventId))

/-- First-occurrence deduplication: the Python `set` of user ids collected
from the batch, linearized in first-appearance order (upserts to distinct
ids commute, so any linearization of the set is equivalent). -/
def dedup : List String → List String
  | [] => []
  | x :: xs => x :: (dedup xs).filter (fun y => !(y == x))

/-- `INSERT ... ON CONFLICT (user_id) DO UPDATE SET is_active = true,
updated_at = now` for one user id: the single atomic upsert used by both
`_ensure_users_batch` and the fallback path. -/
def upsertUser (now : Int) (users : List UserRow) (uid : String) : List UserRow :=
  if users.any (fun u => u.userId == uid) then
    users.map (fun u =>
      if u.userId == uid then { u with isActive := true, updatedAt := now } else u)
  else
    users ++ [{ userId := uid
                name := "User_" ++ uid
                email := uid ++ "@example.com"
                isActive := true
                createdAt := now
                updatedAt := now }]

/-- `_ensure_users_batch`: one upsert per distinct user id of the batch. -/
def ensure_users_batch (now : Int) (db : DB) (userIds : List String) : DB :=
  { db with users := userIds.foldl (upsertUser now) db.users }

/-- The `SELECT DISTINCT ON (user_id) ... ORDER BY user_id, occurred_at`
query of `_update_retention_batch`, restricted to one user: the smallest
`occurred_at` among that user's event rows (ties share the timestamp and
hence the date). -/
def firstTimestamp (evs : List EventRow) (uid : String) : Option Int :=
  (evs.filter (fun r => r.userId == uid)).foldl
    (fun acc r =>
      match acc with
      | none => some r.occurredAt
      | some t => some (min t r.occurredAt))
    none

/-- `first_event_map[user_id]` — the `occurred_at::date` of the user's
earliest event. -/
def firstDate (evs : List EventRow) (uid : String) : Option Int :=
  (firstTimestamp evs uid).map dateOf

/-- One element of `retention_data` in `_update_retention_batch`. -/
def mkRetentionRow (evs : List EventRow) (e : EventInput) : RetentionRow :=
  let eventDate := eventDateOf e
  let cohortDate := (firstDate evs e.userId).getD eventDate
  { userId := e.userId
    cohortDate := cohortDate
    activityDate := eventDate
    retentionDay := eventDate - cohortDate }

/-- Does the retention table hold a row with this unique triple? -/
def tripleExists (rs : List RetentionRow) (row : RetentionRow) : Bool :=
  rs.any (fun r =>
    r.userId == row.userId && r.cohortDate == row.cohortDate
      && r.activityDate == row.activityDate)

/-- `INSERT ... ON CONFLICT (user_id, cohort_date, activity_date) DO NOTHING`:
rows are inserted in order; a row whose triple is already present (also from
earlier rows of the same statement) is silently skipped. -/
def insertRetentionRows (rs : List RetentionRow) (rows : List RetentionRow) :
    List RetentionRow :=
  rows.foldl (fun acc row => if tripleExists acc row then acc else acc ++ [row]) rs

/-- `_update_retention_batch`: read the per-user earliest dates (observing
the rows just inserted in this transaction), build `retention_data`, insert
with conflict-do-nothing on the triple. -/
def update_retention_batch (db : DB) (events : List EventInput) : DB :=
  if events.isEmpty then db
  else
    { db with
        retention := insertRetentionRows db.retention
          (events.map (mkRetentionRow db.events)) }

/-- Redis glob match for the patterns the code uses: every pattern the code
passes to `delete_pattern` is a prefix-glob `p*`, matching keys that start
with `p`; a pattern without a trailing `*` matches only itself.  Character
lists are used instead of opaque `String` primitives so matching is
kernel-computable. -/
def matchesPat (pat key : String) : Bool :=
  if pat.data.getLast? == some '*' then pat.data.dropLast.isPrefixOf key.data
  else pat == key

/-- `RedisClient.delete_pattern`: when connected, drop every key matching
the pattern (no-op when disconnected). -/
def deletePattern (c : Cache) (pat : String) : Cache :=
  if c.connected then { c with keys := c.keys.filter (fun k => !(matchesPat pat k)) }
  else c

/-- `_invalidate_user_caches`: for each touched user, delete the
`user_stats:{uid}:*` and `user_retention:{uid}:*` patterns; no-op when the
client is disconnected. -/
def invalidate_user_caches (c : Cache) (userIds : List String) : Cache :=
  if !c.connected then c
  else userIds.foldl
    (fun acc uid =>
      deletePattern (deletePattern acc ("user_stats:" ++ uid ++ ":*"))
        ("user_retention:" ++ uid ++ ":*"))
    c

/-- `_insert_events_individual_simple`'s loop.  `base` is the committed
state (there is no commit inside the loop, so `db.rollback()` always
restores `base`, discarding every flushed-but-uncommitted insert of this
run).  `touched` accumulates `user_ids.add(event.user_id)`, which happens
before the flush and therefore also for failing events. -/
def fallbackLoop (now : Int) (base : DB) :
    List EventInput → DB → Nat → List String → Nat × DB × List String
  | [], cur, successful, touched => (successful, cur, touched)
  | e :: rest, cur, successful, touched =>
    let touched' := touched ++ [e.userId]
    let curU := { cur with users := upsertUser now cur.users e.userId }
    if hasEventId curU.events e.eventId then
      -- flush raises IntegrityError; `db.rollback()` reverts the whole
      -- uncommitted transaction, then the loop continues
      fallbackLoop now base rest base successful touched'
    else
      fallbackLoop now base rest { curU with events := curU.events ++ [mkRow e] }
        (successful + 1) touched'

/-- `_insert_events_individual_simple`: per-event fallback.  Commits once at
the end when at least one flush succeeded; otherwise the uncommitted work is
abandoned and the committed store is unchanged.  Returns the `successful`
counter, the resulting committed store, and the touched-user set (the cache
invalidation it performs is threaded by the caller). -/
def insert_events_individual_simple (now : Int) (db : DB)
    (events : List EventInput) : Nat × DB × List String :=
  let r := fallbackLoop now db events db 0 []
  if r.1 > 0 then (r.1, r.2.1, dedup r.2.2) else (r.1, db, dedup r.2.2)

/-- `ingest_events` (the undecorated function body).  `storeFault` injects
an unexpected store error (e.g. connectivity) inside the transaction, which
the code catches with the generic `except Exception` handler: rollback, log,
`return 0`.  An `IntegrityError` from the bulk insert triggers rollback and
the per-event fallback.  The result is `Except.ok n` for Python `return n`;
`Except.error` would model an uncaught exception (the function catches
everything, so no branch produces it). -/
def ingest_events (now : Int) (storeFault : Bool) (db : DB) (cache : Cache)
    (events : List EventInput) : Except String Nat × DB × Cache :=
  if events.isEmpty then (Except.ok 0, db, cache)
  else if storeFault then
    -- generic except-branch: db.rollback(); return 0
    (Except.ok 0, db, cache)
  else
    let eventsData := events.map mkRow
    let userIds := dedup (events.map (fun e => e.userId))
    if hasBatchConflict db.events eventsData then
      -- IntegrityError: db.rollback() restores `db`, then the fallback runs
      let r := insert_events_individual_simple now db events
      let cache' := if r.1 > 0 then invalidate_user_caches cache r.2.2 else cache
      (Except.ok r.1, r.2.1, cache')
    else
      let db1 := ensure_users_batch now db userIds
      let db2 := { db1 with events := db1.events ++ eventsData }
      let db3 := update_retention_batch db2 events
      -- db.commit(), then user-cache invalidation
      (Except.ok eventsData.length, db3, invalidate_user_caches cache userIds)

/-- The six `@invalidate_cache(pattern=...)` decorators on `ingest_events`,
in execution order (innermost wrapper first). -/
def aggPatterns : List String :=
  ["ingestion_metrics:*", "user_stats:*", "top_events:*", "dau:*",
   "retention:*", "cohorts:list:*"]

/-- The decorated `ingest_events` as imported by callers: run the body, then
each decorator deletes its pattern (when the client is connected —
`delete_pattern` itself re-checks the flag).  The deletions run after every
return of the body, including `return 0` paths. -/
def ingest_events_decorated (now : Int) (storeFault : Bool) (db : DB)
    (cache : Cache) (events : List EventInput) : Except String Nat × DB × Cache :=
  let r := ingest_events now storeFault db cache events
  (r.1, r.2.1, aggPatterns.foldl deletePattern r.2.2)

/-! ### Analytics query layer (`app/analytics.py`)

The analytics functions read the same tables; `user_retention` may not exist
yet (it was added by a later migration), which is the failure mode the spec
discusses.  A query against a missing table raises a database error; the
code paths model exactly which handler sees it.  `get_cohorts_list`,
`get_retention_stats` and `get_user_retention_data` wrap everything in
`try/except` handlers that RETURN structured values, so they are embedded as
total functions; `get_dau_stats`/`get_top_events` re-`raise` in their
handlers, but they query only the always-present `events` table, so within
this model no branch reaches the re-raise. -/

/-- The store as seen by the analytics layer: the `user_retention` table may
not have been created yet. -/
structure AnalyticsDB where
  retentionTableExists : Bool
  retention : List RetentionRow
  events : List EventRow
  deriving Repr, DecidableEq

/-- Polymorphic first-occurrence deduplication (`COUNT(DISTINCT ...)` /
`GROUP BY` helper). -/
def dedupBy {α : Type} [BEq α] : List α → List α
  | [] => []
  | x :: xs => x :: (dedupBy xs).filter (fun y => !(y == x))

/-- Ordered insertion for `ORDER BY` clauses. -/
def insertLe {α : Type} (le : α → α → Bool) (x : α) : List α → List α
  | [] => [x]
  | y :: ys => if le x y then x :: y :: ys else y :: insertLe le x ys

/-- Insertion sort (tie order among equal sort keys is unspecified by the
SQL `ORDER BY`, so any consistent choice is a faithful embedding). -/
def sortLe {α : Type} (le : α → α → Bool) : List α → List α
  | [] => []
  | x :: xs => insertLe le x (sortLe le xs)

/-- One element of the list returned by `get_cohorts_list`. -/
structure CohortEntry where
  cohortDate : Int
  totalUsers : Nat
  daysSinceStart : Int
  deriving Repr, DecidableEq

/-- `COUNT(DISTINCT user_id)` over retention rows with the given cohort date
and `retention_day = 0`. -/
def cohortSize (rs : List RetentionRow) (d : Int) : Nat :=
  (dedupBy ((rs.filter (fun r => r.cohortDate == d && r.retentionDay == 0)).map
    (fun r => r.userId))).length

/-- `get_cohorts_list`: returns `[]` when the `user_retention` table does not
exist; otherwise cohort dates having day-0 rows, newest first, limited. -/
def get_cohorts_list (db : AnalyticsDB) (lim : Nat) (today : Int) :
    List CohortEntry :=
  if !db.retentionTableExists then []
  else
    let day0 := db.retention.filter (fun r => r.retentionDay == 0)
    let dates := sortLe (fun a b => b ≤ a) (dedupBy (day0.map (fun r => r.cohortDate)))
    (dates.take lim).map (fun d =>
      { cohortDate := d
        totalUsers := cohortSize db.retention d
        daysSinceStart := today - d })

/-- One element of the `data` list of `get_retention_stats`.  The Python
`retention_rate` is a float rounded to two decimals; it is modelled as the
exact rational `retained / total * 100` (no claim inspects the rounding). -/
structure RetentionWindowEntry where
  window : Nat
  windowDate : Int
  retainedUsers : Nat
  totalCohortUsers : Nat
  retentionRate : ℚ
  deriving Repr, DecidableEq

/-- The dict returned by `get_retention_stats` (`metric` is the constant
string "retention" and is omitted). -/
structure RetentionStatsResult where
  cohortStart : Int
  totalUsers : Nat
  windows : Nat
  data : List RetentionWindowEntry
  message : Option String
  deriving Repr, DecidableEq

/-- `COUNT(DISTINCT user_id)` of rows with this cohort date and exactly this
retention day (the SQL also bounds `0 ≤ retention_day ≤ windows`; the caller
only probes days in that range). -/
def retainedUsersOn (rs : List RetentionRow) (cohort : Int) (day : Int) : Nat :=
  (dedupBy ((rs.filter (fun r => r.cohortDate == cohort && r.retentionDay == day)).map
    (fun r => r.userId))).length

/-- `get_retention_stats`: zeroed result with a message when the table does
not exist or the cohort is empty; otherwise one entry per day 0..windows. -/
def get_retention_stats (db : AnalyticsDB) (startDate : Int) (windows : Nat) :
    RetentionStatsResult :=
  if !db.retentionTableExists then
    { cohortStart := startDate, totalUsers := 0, windows := windows, data := []
      message := some "Retention data not available yet - table does not exist" }
  else
    let totalUsers := retainedUsersOn db.retention startDate 0
    if totalUsers == 0 then
      { cohortStart := startDate, totalUsers := 0, windows := windows, data := []
        message := some "No users found for this cohort" }
    else
      { cohortStart := startDate
        totalUsers := totalUsers
        windows := windows
        data := (List.range (windows + 1)).map (fun day =>
          let retained := retainedUsersOn db.retention startDate (Int.ofNat day)
          { window := day
            windowDate := startDate + Int.ofNat day
            retainedUsers := retained
            totalCohortUsers := totalUsers
            retentionRate := (retained : ℚ) / (totalUsers : ℚ) * 100 })
        message := none }

/-- The dict returned by `get_dau_stats` (`metric`/`period` constants
omitted; `data` pairs are `(event_date, unique_users)`). -/
structure DauResult where
  fromDate : Int
  toDate : Int
  data : List (Int × Nat)
  deriving Repr, DecidableEq

/-- `get_dau_stats`: unique users per day over the inclusive date range,
ascending by date.  Queries only the `events` table; its `except` handler
re-raises, but no modelled condition makes the query fail. -/
def get_dau_stats (db : AnalyticsDB) (fromDate toDate : Int) : DauResult :=
  let inRange := db.events.filter (fun r => fromDate ≤ r.eventDate && r.eventDate ≤ toDate)
  let dates := sortLe (fun a b => a ≤ b) (dedupBy (inRange.map (fun r => r.eventDate)))
  { fromDate := fromDate
    toDate := toDate
    data := dates.map (fun d =>
      (d, (dedupBy ((inRange.filter (fun r => r.eventDate == d)).map
            (fun r => r.userId))).length)) }

/-- The dict returned by `get_top_events`. -/
structure TopEventsResult where
  fromDate : Int
  toDate : Int
  data : List (String × Nat)
  deriving Repr, DecidableEq

/-- `get_top_events`: event-type counts over the inclusive date range,
descending by count, limited.  Same remarks as `get_dau_stats`. -/
def get_top_events (db : AnalyticsDB) (fromDate toDate : Int) (lim : Nat) :
    TopEventsResult :=
  let inRange := db.events.filter (fun r => fromDate ≤ r.eventDate && r.eventDate ≤ toDate)
  let types := dedupBy (inRange.map (fun r => r.eventType))
  let counts := types.map (fun t =>
    (t, (inRange.filter (fun r => r.eventType == t)).length))
  { fromDate := fromDate
    toDate := toDate
    data := (sortLe (fun a b => b.2 ≤ a.2) counts).take lim }

/-- The value returned by `get_user_retention_data`: either the per-user
stats dict or a dict carrying only an "error" message (both are returns —
the function's `except` handler returns, it never re-raises). -/
inductive UserRetentionResult where
  | stats (userId : String) (cohortDate : Int) (totalDaysTracked : Int)
      (activeDays : Nat) (retentionRate : ℚ) (dailyActivity : List (Int × Int))
  | err (msg : String)
  deriving Repr, DecidableEq

/-- `get_user_retention_data`: no table-existence pre-check, so a missing
`user_retention` table raises inside the `try` and the handler returns the
error dict; a user with no rows returns the literal "User not found" error
dict.  Rows are ordered by `retention_day`; `daily_activity` pairs are
`(retention_day, activity_date)`. -/
def get_user_retention_data (db : AnalyticsDB) (uid : String) :
    UserRetentionResult :=
  if !db.retentionTableExists then
    .err "relation user_retention does not exist"
  else
    let rows := sortLe (fun a b => a.retentionDay ≤ b.retentionDay)
      (db.retention.filter (fun r => r.userId == uid))
    match rows with
    | [] => .err "User not found in retention data"
    | first :: _ =>
      let totalDays := (rows.map (fun r => r.retentionDay)).foldl max
        first.retentionDay + 1
      let activeDays := rows.length
      .stats uid first.cohortDate totalDays activeDays
        (if 0 < totalDays then (activeDays : ℚ) / (totalDays : ℚ) * 100 else 0)
        (rows.map (fun r => (r.retentionDay, r.activityDate)))

/-- Modelled from the spec (§6): the per-user retention output shape is
`(cohort_date, total_days_tracked, active_days, retention_rate_percent,
daily_activity)`; an "empty or zeroed structured result" is that shape with
zero counts, zero rate and an empty activity list.  An error-message dict is
not of this shape. -/
def isZeroedUserRetention : UserRetentionResult → Bool
  | .stats _ _ totalDays activeDays rate daily =>
      totalDays == 0 && activeDays == 0 && rate == 0 && daily.isEmpty
  | .err _ => false

/-- Is the per-user result the error-message dict (as opposed to the stats
shape)? -/
def isErrUserRetention : UserRetentionResult → Bool
  | .stats _ _ _ _ _ _ => false
  | .err _ => true

/-- Did the Python call return normally (`Except.ok`) rather than raise
(`Except.error`)? -/
def exceptIsOk {α : Type} : Except String α → Bool
  | .ok _ => true
  | .error _ => false

/-- The minimum occurrence date over a batch (the spec's "minimum occurrence
date within the batch"); `0` for an empty batch, which no claim uses. -/
def batchMinDate (es : List EventInput) : Int :=
  match es.map eventDateOf with
  | [] => 0
  | d :: ds => ds.foldl min d

/-- The unique key of `ix_user_cohort_activity`. -/
def retentionKey (r : RetentionRow) : String × Int × Int :=
  (r.userId, r.cohortDate, r.activityDate)

/-- The invariant enforced by the unique index on `user_retention`: no two
rows share the `(user_id, cohort_date, activity_date)` triple. -/
def triplesUnique (rs : List RetentionRow) : Prop :=
  (rs.map retentionKey).Nodup

instance (rs : List RetentionRow) : Decidable (triplesUnique rs) :=
  inferInstanceAs (Decidable ((rs.map retentionKey).Nodup))

/-! ## Helper lemmas -/

theorem hasEventId_append (a b : List EventRow) (i : Nat) :
    hasEventId (a ++ b) i = (hasEventId a i || hasEventId b i) := by
  simp [hasEventId, List.any_append]

theorem ensure_users_batch_events (now : Int) (db : DB) (us : List String) :
    (ensure_users_batch now db us).events = db.events := rfl

theorem ensure_users_batch_retention (now : Int) (db : DB) (us : List String) :
    (ensure_users_batch now db us).retention = db.retention := rfl

theorem update_retention_batch_events (db : DB) (es : List EventInput) :
    (update_retention_batch db es).events = db.events := by
  unfold update_retention_batch; split <;> rfl

theorem deletePattern_connected (c : Cache) (p : String) :
    (deletePattern c p).connected = c.connected := by
  unfold deletePattern; split <;> rfl

theorem invalidate_user_caches_connected (c : Cache) (us : List String) :
    (invalidate_user_caches c us).connected = c.connected := by
  unfold invalidate_user_caches
  split
  · rfl
  · have h : ∀ (l : List String) (c₀ : Cache),
        (List.foldl
          (fun acc uid =>
            deletePattern (deletePattern acc ("user_stats:" ++ uid ++ ":*"))
              ("user_retention:" ++ uid ++ ":*"))
          c₀ l).connected = c₀.connected := by
      intro l
      induction l with
      | nil => intro c₀; rfl
      | cons u rest ih =>
          intro c₀
          simp only [List.foldl_cons]
          rw [ih, deletePattern_connected, deletePattern_connected]
    exact h us c

/-- A fallback run in which every event's id already exists commits nothing:
each iteration hits the uniqueness violation and rolls back to `base`. -/
theorem fallbackLoop_all_dup (now : Int) (base : DB) (es : List EventInput)
    (h : ∀ e ∈ es, hasEventId base.events e.eventId = true) :
    ∀ t, fallbackLoop now base es base 0 t
      = (0, base, t ++ es.map (fun e => e.userId)) := by
  induction es with
  | nil => intro t; simp [fallbackLoop]
  | cons e rest ih =>
      intro t
      have he : hasEventId base.events e.eventId = true := h e (List.mem_cons_self e rest)
      simp only [fallbackLoop, he, if_true, ite_true]
      rw [ih (fun x hx => h x (List.mem_cons_of_mem e hx)) (t ++ [e.userId])]
      simp

/-- Ingesting a batch all of whose event ids are already stored is a no-op:
the bulk insert conflicts, the fallback skips every event, nothing commits,
the cache is untouched, and the returned count is 0. -/
theorem ingest_all_dup_noop (now : Int) (db : DB) (c : Cache)
    (es : List EventInput)
    (h : ∀ e ∈ es, hasEventId db.events e.eventId = true) :
    ingest_events now false db c es = (Except.ok 0, db, c) := by
  cases es with
  | nil => rfl
  | cons e rest =>
      have he : hasEventId db.events e.eventId = true := h e (List.mem_cons_self e rest)
      have hconf : hasBatchConflict db.events ((e :: rest).map mkRow) = true := by
        simp [hasBatchConflict, mkRow, hasEventId] at he ⊢
        exact Or.inl (Or.inl he)
      have hfall : insert_events_individual_simple now db (e :: rest)
          = (0, db, dedup ((e :: rest).map (fun x => x.userId))) := by
        simp only [insert_events_individual_simple,
          fallbackLoop_all_dup now db (e :: rest) h [], List.nil_append,
          gt_iff_lt, Nat.lt_irrefl, ite_false, if_false]
      simp only [ingest_events, List.isEmpty_cons, Bool.false_eq_true, if_false,
        ite_false, hconf, if_true, ite_true, hfall]
      simp

/-- The per-event fallback never writes to the retention table. -/
theorem insert_events_individual_simple_retention (now : Int) (db : DB)
    (es : List EventInput) :
    (insert_events_individual_simple now db es).2.1.retention = db.retention := by
  have hloop : ∀ (l : List EventInput) (cur : DB) (s : Nat) (t : List String),
      cur.retention = db.retention →
      (fallbackLoop now db l cur s t).2.1.retention = db.retention := by
    intro l
    induction l with
    | nil => intro cur s t hc; exact hc
    | cons e rest ih =>
        intro cur s t hc
        simp only [fallbackLoop]
        split
        · exact ih db s (t ++ [e.userId]) rfl
        · exact ih _ (s + 1) (t ++ [e.userId]) hc
  unfold insert_events_individual_simple
  dsimp only
  split
  · exact hloop es db 0 [] rfl
  · rfl

theorem tripleExists_false_key_not_mem (rs : List RetentionRow)
    (row : RetentionRow) (h : tripleExists rs row = false) :
    retentionKey row ∉ rs.map retentionKey := by
  intro hmem
  obtain ⟨r, hr, hkey⟩ := List.mem_map.mp hmem
  simp only [tripleExists, List.any_eq_false] at h
  have := h r hr
  simp only [retentionKey, Prod.mk.injEq] at hkey
  simp [hkey.1, hkey.2.1, hkey.2.2] at this

/-- `ON CONFLICT DO NOTHING` keyed on the triple preserves triple
uniqueness. -/
theorem insertRetentionRows_nodup (rows rs : List RetentionRow)
    (h : triplesUnique rs) : triplesUnique (insertRetentionRows rs rows) := by
  induction rows generalizing rs with
  | nil => exact h
  | cons row rest ih =>
      simp only [insertRetentionRows, List.foldl_cons]
      by_cases hex : tripleExists rs row = true
      · simp only [hex, if_true, ite_true]
        exact ih rs h
      · rw [Bool.not_eq_true] at hex
        simp only [hex, Bool.false_eq_true, if_false, ite_false]
        refine ih (rs ++ [row]) ?_
        unfold triplesUnique at h ⊢
        rw [List.map_append, List.map_singleton]
        refine List.Nodup.append h (List.nodup_singleton _) ?_
        intro a ha hb
        rcases List.mem_singleton.mp hb with rfl
        exact tripleExists_false_key_not_mem rs row hex ha

theorem update_retention_batch_unique (db : DB) (es : List EventInput)
    (h : triplesUnique db.retention) :
    triplesUnique (update_retention_batch db es).retention := by
  unfold update_retention_batch
  split
  · exact h
  · exact insertRetentionRows_nodup _ _ h

/-- Every path of `ingest_events` keeps the retention triples unique. -/
theorem ingest_preserves_triple_uniqueness (now : Int) (f : Bool) (db : DB)
    (c : Cache) (es : List EventInput) (h : triplesUnique db.retention) :
    triplesUnique (ingest_events now f db c es).2.1.retention := by
  unfold ingest_events
  dsimp only
  split
  · exact h
  · split
    · exact h
    · split
      · simpa [insert_events_individual_simple_retention] using h
      · refine update_retention_batch_unique _ es ?_
        simpa [ensure_users_batch_retention] using h

theorem foldl_deletePattern_mem (pats : List String) (c : Cache) (k : String)
    (h : k ∈ (pats.foldl deletePattern c).keys) : k ∈ c.keys := by
  induction pats generalizing c with
  | nil => exact h
  | cons p ps ih =>
      have h2 := ih (deletePattern c p) h
      unfold deletePattern at h2
      split at h2
      · exact (List.mem_filter.mp h2).1
      · exact h2

/-- After a connected cache ran `delete_pattern` for every pattern in the
list, no surviving key matches any of those patterns. -/
theorem foldl_deletePattern_no_match (pats : List String) (c : Cache)
    (hc : c.connected = true) (k : String)
    (hk : k ∈ (pats.foldl deletePattern c).keys) :
    ∀ p ∈ pats, matchesPat p k = false := by
  induction pats generalizing c with
  | nil => intro p hp; cases hp
  | cons p ps ih =>
      intro q hq
      rcases List.mem_cons.mp hq with rfl | hq2
      · have hmem : k ∈ (deletePattern c q).keys :=
          foldl_deletePattern_mem ps (deletePattern c q) k hk
        unfold deletePattern at hmem
        rw [hc] at hmem
        simp only [if_true, ite_true] at hmem
        have := (List.mem_filter.mp hmem).2
        simpa using this
      · exact ih (deletePattern c p)
          (by rw [deletePattern_connected]; exact hc) hk q hq2

theorem ingest_cache_connected (now : Int) (f : Bool) (db : DB) (c : Cache)
    (es : List EventInput) :
    (ingest_events now f db c es).2.2.connected = c.connected := by
  unfold ingest_events
  dsimp only
  split
  · rfl
  · split
    · rfl
    · split
      · split
        · exact invalidate_user_caches_connected c _
        · rfl
      · exact invalidate_user_caches_connected c _

theorem dateOf_mono {a b : Int} (h : a ≤ b) : dateOf a ≤ dateOf b :=
  Int.ediv_le_ediv (by norm_num) h

theorem dateOf_min (a b : Int) : dateOf (min a b) = min (dateOf a) (dateOf b) := by
  rcases le_total a b with h | h
  · rw [min_eq_left h, min_eq_left (dateOf_mono h)]
  · rw [min_eq_right h, min_eq_right (dateOf_mono h)]

theorem foldl_min_dateOf (ts : List Int) (t : Int) :
    dateOf (ts.foldl min t) = (ts.map dateOf).foldl min (dateOf t) := by
  induction ts generalizing t with
  | nil => rfl
  | cons a ts ih =>
      simp only [List.foldl_cons, List.map_cons]
      rw [ih, dateOf_min]

theorem foldl_min_le_init (ds : List Int) (d : Int) : ds.foldl min d ≤ d := by
  induction ds generalizing d with
  | nil => exact le_refl d
  | cons a ds ih =>
      simp only [List.foldl_cons]
      exact le_trans (ih (min d a)) (min_le_left d a)

theorem foldl_min_le_mem (ds : List Int) (d x : Int) (hx : x ∈ ds) :
    ds.foldl min d ≤ x := by
  induction ds generalizing d with
  | nil => cases hx
  | cons a ds ih =>
      simp only [List.foldl_cons]
      rcases List.mem_cons.mp hx with rfl | hx2
      · exact le_trans (foldl_min_le_init ds (min d x)) (min_le_right d x)
      · exact ih (min d a) hx2

theorem rowFoldMin_some (rows : List EventRow) (t : Int) :
    rows.foldl
      (fun acc r =>
        match acc with
        | none => some r.occurredAt
        | some x => some (min x r.occurredAt))
      (some t)
      = some ((rows.map (fun r => r.occurredAt)).foldl min t) := by
  induction rows generalizing t with
  | nil => rfl
  | cons r rest ih =>
      simp only [List.foldl_cons, List.map_cons]
      exact ih (min t r.occurredAt)

/-- The `DISTINCT ON`-style earliest-timestamp query, evaluated on a store
whose rows for the user are known. -/
theorem firstTimestamp_of_filter (evs : List EventRow) (uid : String)
    (r₀ : EventRow) (rest : List EventRow)
    (hf : evs.filter (fun r => r.userId == uid) = r₀ :: rest) :
    firstTimestamp evs uid
      = some ((rest.map (fun r => r.occurredAt)).foldl min r₀.occurredAt) := by
  unfold firstTimestamp
  rw [hf]
  simp only [List.foldl_cons]
  exact rowFoldMin_some rest r₀.occurredAt

theorem mem_insertRetentionRows (rows rs : List RetentionRow) (r : RetentionRow)
    (h : r ∈ insertRetentionRows rs rows) : r ∈ rs ∨ r ∈ rows := by
  induction rows generalizing rs with
  | nil => exact Or.inl h
  | cons row rest ih =>
      simp only [insertRetentionRows, List.foldl_cons] at h
      by_cases hex : tripleExists rs row = true
      · rw [hex] at h
        simp only [if_true, ite_true] at h
        rcases ih rs h with h2 | h2
        · exact Or.inl h2
        · exact Or.inr (List.mem_cons_of_mem row h2)
      · rw [Bool.not_eq_true] at hex
        rw [hex] at h
        simp only [Bool.false_eq_true, if_false, ite_false] at h
        rcases ih (rs ++ [row]) h with h2 | h2
        · rcases List.mem_append.mp h2 with h3 | h3
          · exact Or.inl h3
          · rcases List.mem_singleton.mp h3 with rfl
            exact Or.inr (List.mem_cons_self r rest)
        · exact Or.inr (List.mem_cons_of_mem row h2)

/-! ## Claim theorems -/

/-- C2 (the claim is the code's own intent; the code slips): in the fallback
run on the batch `[fresh event id 2, duplicate id 1, fresh event id 3]`
against a store already holding id 1, the duplicate's `db.rollback()`
reverts the whole uncommitted transaction, discarding the already-flushed
first event; the function still returns `successful = 2`, yet only the third
event was actually persisted.  This contradicts the claim that only the
duplicate's own sub-transaction rolls back and that the returned count
equals the number of events actually persisted. -/
theorem fallback_rollback_discards_prior_flushed_events :
    (insert_events_individual_simple 0
        ⟨[⟨1, 8640000, "u0", "click", none, 100⟩], [], []⟩
        [⟨2, 8726400, "u2", "view", none⟩,
         ⟨1, 8640000, "u0", "click", none⟩,
         ⟨3, 8812800, "u3", "view", none⟩]).1 = 2 ∧
    (insert_events_individual_simple 0
        ⟨[⟨1, 8640000, "u0", "click", none, 100⟩], [], []⟩
        [⟨2, 8726400, "u2", "view", none⟩,
         ⟨1, 8640000, "u0", "click", none⟩,
         ⟨3, 8812800, "u3", "view", none⟩]).2.1.events
      = [⟨1, 8640000, "u0", "click", none, 100⟩,
         ⟨3, 8812800, "u3", "view", none, 102⟩] := by
  constructor <;> rfl

/-- C5 counterexample: ingesting an empty batch through the decorated
`ingest_events` with a connected cache holding the key `dau:2024` deletes
that key (the `@invalidate_cache` decorators run after every return), so the
claim's "no cache keys are read, written, or deleted" is false. -/
theorem empty_batch_still_invalidates_cache_counterexample :
    ingest_events_decorated 0 false ⟨[], [], []⟩ ⟨true, ["dau:2024"]⟩ []
      = (Except.ok 0, ⟨[], [], []⟩, ⟨true, []⟩) := by
  rfl

/-- C5 (amended): an empty batch returns accepted count 0, performs no store
operation (the store is returned unchanged) and no cache operation inside
the function body, but the six `@invalidate_cache` decorators still delete
the global aggregate patterns after the call (a no-op only when the cache is
disconnected). -/
theorem empty_batch_no_store_ops_but_decorators_invalidate
    (now : Int) (storeFault : Bool) (db : DB) (c : Cache) :
    ingest_events now storeFault db c [] = (Except.ok 0, db, c) ∧
    ingest_events_decorated now storeFault db c []
      = (Except.ok 0, db, aggPatterns.foldl deletePattern c) := by
  constructor <;> rfl

/-- C6 counterexample: with an unexpected (non-uniqueness) store error
injected into the transaction, `ingest_events` returns normally with count 0
(`Except.ok 0`, i.e. `exceptIsOk`) — the generic `except Exception` handler
swallows the error — so the claim that the failure is surfaced to the caller
as a failure is false. -/
theorem store_fault_not_surfaced_counterexample :
    (ingest_events 0 true ⟨[], [], []⟩ ⟨false, []⟩
        [⟨1, 0, "u1", "click", none⟩]).1 = Except.ok 0 ∧
    exceptIsOk (ingest_events 0 true ⟨[], [], []⟩ ⟨false, []⟩
        [⟨1, 0, "u1", "click", none⟩]).1 = true := by
  constructor <;> rfl

/-- C6 (amended): on any transaction error other than a uniqueness
violation, `ingest_events` aborts the whole batch — full rollback, the store
is unchanged, zero events persisted — returns count 0 and does not retry
internally; the error is logged and swallowed rather than surfaced to the
caller as a failure. -/
theorem store_fault_aborts_batch_returns_zero
    (now : Int) (db : DB) (c : Cache) (es : List EventInput) :
    ingest_events now true db c es = (Except.ok 0, db, c) := by
  cases es <;> rfl

/-- C1 counterexample: store holds the event with id 1; the batch is that
duplicate plus two new events.  The fallback runs and returns 2, but the
committed store afterwards has NO UserRetention rows at all — the per-event
fallback path never derives retention — refuting the claim that the two new
events' retention rows exist. -/
theorem fallback_scenario_no_retention_rows_counterexample :
    (ingest_events 0 false ⟨[⟨1, 8640000, "u0", "click", none, 100⟩], [], []⟩
        ⟨false, []⟩
        [⟨1, 8640000, "u0", "click", none⟩,
         ⟨2, 8726400, "u2", "view", none⟩,
         ⟨3, 8812800, "u3", "view", none⟩]).1 = Except.ok 2 ∧
    (ingest_events 0 false ⟨[⟨1, 8640000, "u0", "click", none, 100⟩], [], []⟩
        ⟨false, []⟩
        [⟨1, 8640000, "u0", "click", none⟩,
         ⟨2, 8726400, "u2", "view", none⟩,
         ⟨3, 8812800, "u3", "view", none⟩]).2.1.retention = [] := by
  constructor <;> rfl

/-- C1 (amended): for a batch `[duplicate, new₁, new₂]` whose first event's
id already exists in the store and whose other two ids are fresh and
distinct, `ingest_events` falls back to per-event processing and returns 2;
afterwards the two new Event rows exist (appended after the untouched
pre-existing rows, so the duplicate's row is unchanged), but no UserRetention
rows are created — the fallback path performs no retention derivation. -/
theorem fallback_dup_first_inserts_new_events_without_retention
    (now : Int) (db : DB) (c : Cache) (d e₂ e₃ : EventInput)
    (hd : hasEventId db.events d.eventId = true)
    (h₂ : hasEventId db.events e₂.eventId = false)
    (h₃ : hasEventId db.events e₃.eventId = false)
    (hne : (e₂.eventId == e₃.eventId) = false) :
    (ingest_events now false db c [d, e₂, e₃]).1 = Except.ok 2 ∧
    (ingest_events now false db c [d, e₂, e₃]).2.1.events
      = db.events ++ [mkRow e₂, mkRow e₃] ∧
    (ingest_events now false db c [d, e₂, e₃]).2.1.retention = db.retention := by
  have hconf : hasBatchConflict db.events [mkRow d, mkRow e₂, mkRow e₃] = true := by
    simp [hasBatchConflict, mkRow, hasEventId] at hd ⊢
    exact Or.inl (Or.inl hd)
  have h23 : hasEventId (db.events ++ [mkRow e₂]) e₃.eventId = false := by
    rw [hasEventId_append, h₃]
    simp [hasEventId, mkRow, hne]
  have hfall : insert_events_individual_simple now db [d, e₂, e₃]
      = (2, ⟨db.events ++ [mkRow e₂] ++ [mkRow e₃],
             upsertUser now (upsertUser now db.users e₂.userId) e₃.userId,
             db.retention⟩,
         dedup [d.userId, e₂.userId, e₃.userId]) := by
    simp only [insert_events_individual_simple, fallbackLoop, hd, h₂, h23,
      if_true, if_false, Bool.false_eq_true, ite_true, ite_false,
      List.nil_append, List.cons_append, List.append_nil]
    norm_num
  rw [show (ingest_events now false db c [d, e₂, e₃])
      = (Except.ok (insert_events_individual_simple now db [d, e₂, e₃]).1,
         (insert_events_individual_simple now db [d, e₂, e₃]).2.1,
         if (insert_events_individual_simple now db [d, e₂, e₃]).1 > 0 then
           invalidate_user_caches c
             (insert_events_individual_simple now db [d, e₂, e₃]).2.2
         else c) from by
    simp only [ingest_events, List.isEmpty_cons, Bool.false_eq_true, if_false,
      ite_false, List.map_cons, List.map_nil, hconf, if_true, ite_true]]
  rw [hfall]
  refine ⟨rfl, ?_, rfl⟩
  simp [List.append_assoc]

/-- Witness for the amended C1 theorem at the concrete scenario store and
batch. -/
theorem fallback_dup_first_witness :
    (ingest_events 0 false ⟨[⟨1, 8640000, "u0", "click", none, 100⟩], [], []⟩
        ⟨false, []⟩
        [⟨1, 8640000, "u0", "click", none⟩,
         ⟨2, 8726400, "u2", "view", none⟩,
         ⟨3, 8812800, "u3", "view", none⟩]).1 = Except.ok 2 ∧
    (ingest_events 0 false ⟨[⟨1, 8640000, "u0", "click", none, 100⟩], [], []⟩
        ⟨false, []⟩
        [⟨1, 8640000, "u0", "click", none⟩,
         ⟨2, 8726400, "u2", "view", none⟩,
         ⟨3, 8812800, "u3", "view", none⟩]).2.1.events
      = [⟨1, 8640000, "u0", "click", none, 100⟩]
          ++ [mkRow ⟨2, 8726400, "u2", "view", none⟩,
              mkRow ⟨3, 8812800, "u3", "view", none⟩] ∧
    (ingest_events 0 false ⟨[⟨1, 8640000, "u0", "click", none, 100⟩], [], []⟩
        ⟨false, []⟩
        [⟨1, 8640000, "u0", "click", none⟩,
         ⟨2, 8726400, "u2", "view", none⟩,
         ⟨3, 8812800, "u3", "view", none⟩]).2.1.retention = [] :=
  fallback_dup_first_inserts_new_events_without_retention 0
    ⟨[⟨1, 8640000, "u0", "click", none, 100⟩], [], []⟩ ⟨false, []⟩
    ⟨1, 8640000, "u0", "click", none⟩ ⟨2, 8726400, "u2", "view", none⟩
    ⟨3, 8812800, "u3", "view", none⟩ (by decide) (by decide) (by decide)
    (by decide)

/-- C9 counterexample: against a store whose `user_retention` table exists
but holds no rows for the requested user, `get_user_retention_data` returns
the error dict `{"error": "User not found in retention data"}` — a returned
value, not an exception, but not the spec's empty/zeroed per-user structure
— so the claim that every analytics function returns an empty or zeroed
structured result under these conditions is false. -/
theorem user_retention_error_dict_counterexample :
    get_user_retention_data ⟨true, [], []⟩ "u1"
      = .err "User not found in retention data" ∧
    isZeroedUserRetention (get_user_retention_data ⟨true, [], []⟩ "u1")
      = false := by
  constructor <;> rfl

/-- C3: submitting an event whose id is fresh inserts it (count 1); a second
submission of a batch containing only that same event takes the conflict
path, returns count 0, and leaves the store unchanged, so exactly one Event
row with that identifier exists afterwards. -/
theorem ingest_same_event_twice_idempotent (now₁ now₂ : Int) (db : DB)
    (c₁ c₂ : Cache) (e : EventInput)
    (hfresh : hasEventId db.events e.eventId = false) :
    (ingest_events now₁ false db c₁ [e]).1 = Except.ok 1 ∧
    (ingest_events now₁ false db c₁ [e]).2.1.events = db.events ++ [mkRow e] ∧
    ((ingest_events now₁ false db c₁ [e]).2.1.events.filter
        (fun r => r.eventId == e.eventId)).length = 1 ∧
    (ingest_events now₂ false (ingest_events now₁ false db c₁ [e]).2.1 c₂ [e]).1
      = Except.ok 0 ∧
    (ingest_events now₂ false (ingest_events now₁ false db c₁ [e]).2.1 c₂ [e]).2.1
      = (ingest_events now₁ false db c₁ [e]).2.1 := by
  have hnoconf : hasBatchConflict db.events [mkRow e] = false := by
    simp [hasBatchConflict, dupWithin, mkRow, hasEventId] at hfresh ⊢
    exact hfresh
  have h1 : ingest_events now₁ false db c₁ [e]
      = (Except.ok 1,
         update_retention_batch
           ⟨db.events ++ [mkRow e],
            (ensure_users_batch now₁ db (dedup [e.userId])).users,
            db.retention⟩ [e],
         invalidate_user_caches c₁ (dedup [e.userId])) := by
    simp only [ingest_events, List.isEmpty_cons, Bool.false_eq_true, if_false,
      ite_false, List.map_cons, List.map_nil, hnoconf, List.length_cons,
      List.length_nil, ensure_users_batch_events, ensure_users_batch_retention]
  have hev : (ingest_events now₁ false db c₁ [e]).2.1.events
      = db.events ++ [mkRow e] := by
    rw [h1]
    exact update_retention_batch_events _ _
  have h2 : ingest_events now₂ false (ingest_events now₁ false db c₁ [e]).2.1 c₂ [e]
      = (Except.ok 0, (ingest_events now₁ false db c₁ [e]).2.1, c₂) := by
    refine ingest_all_dup_noop now₂ _ c₂ [e] ?_
    intro x hx
    rcases List.mem_singleton.mp hx with rfl
    rw [hev, hasEventId_append]
    simp [hasEventId, mkRow]
  refine ⟨by rw [h1], hev, ?_, by rw [h2], by rw [h2]⟩
  rw [hev, List.filter_append]
  have hnil : db.events.filter (fun r => r.eventId == e.eventId) = [] := by
    simp only [List.filter_eq_nil_iff]
    intro r hr
    simp only [hasEventId, List.any_eq_false] at hfresh
    simp [hfresh r hr]
  rw [hnil]
  simp [mkRow]

/-- Witness for the C3 theorem at a concrete fresh event against an empty
store. -/
theorem ingest_same_event_twice_idempotent_witness :
    (ingest_events 0 false ⟨[], [], []⟩ ⟨false, []⟩
        [⟨1, 8640000, "u1", "click", none⟩]).1 = Except.ok 1 ∧
    (ingest_events 0 false ⟨[], [], []⟩ ⟨false, []⟩
        [⟨1, 8640000, "u1", "click", none⟩]).2.1.events
      = ([] : List EventRow) ++ [mkRow ⟨1, 8640000, "u1", "click", none⟩] ∧
    ((ingest_events 0 false ⟨[], [], []⟩ ⟨false, []⟩
        [⟨1, 8640000, "u1", "click", none⟩]).2.1.events.filter
        (fun r => r.eventId == 1)).length = 1 ∧
    (ingest_events 1 false
        (ingest_events 0 false ⟨[], [], []⟩ ⟨false, []⟩
          [⟨1, 8640000, "u1", "click", none⟩]).2.1 ⟨false, []⟩
        [⟨1, 8640000, "u1", "click", none⟩]).1 = Except.ok 0 ∧
    (ingest_events 1 false
        (ingest_events 0 false ⟨[], [], []⟩ ⟨false, []⟩
          [⟨1, 8640000, "u1", "click", none⟩]).2.1 ⟨false, []⟩
        [⟨1, 8640000, "u1", "click", none⟩]).2.1
      = (ingest_events 0 false ⟨[], [], []⟩ ⟨false, []⟩
          [⟨1, 8640000, "u1", "click", none⟩]).2.1 :=
  ingest_same_event_twice_idempotent 0 1 ⟨[], [], []⟩ ⟨false, []⟩ ⟨false, []⟩
    ⟨1, 8640000, "u1", "click", none⟩ (by decide)

/-- C4: for a nonempty batch all of whose events belong to a user with no
prior stored events, and whose bulk insert succeeds, every retention row
after ingestion is either pre-existing or has cohort date equal to the
minimum occurrence date of the batch and a non-negative retention-day
offset. -/
theorem new_user_cohort_is_batch_min_date (now : Int) (db : DB) (c : Cache)
    (u : String) (e₀ : EventInput) (rest : List EventInput)
    (hu : ∀ e ∈ e₀ :: rest, e.userId = u)
    (hdb : ∀ r ∈ db.events, (r.userId == u) = false)
    (hconf : hasBatchConflict db.events ((e₀ :: rest).map mkRow) = false) :
    ((ingest_events now false db c (e₀ :: rest)).2.1.retention.all
      (fun r => decide (r ∈ db.retention)
        || (r.cohortDate == batchMinDate (e₀ :: rest)
            && decide (0 ≤ r.retentionDay)))) = true := by
  have hfilter : (db.events ++ (e₀ :: rest).map mkRow).filter
      (fun r => r.userId == u) = (e₀ :: rest).map mkRow := by
    rw [List.filter_append]
    rw [List.filter_eq_nil_iff.mpr (by intro a ha; simp [hdb a ha]),
      List.nil_append]
    refine List.filter_eq_self.mpr ?_
    intro row hrow
    obtain ⟨e, he, rfl⟩ := List.mem_map.mp hrow
    simp [mkRow, hu e he]
  have hft : firstTimestamp (db.events ++ (e₀ :: rest).map mkRow) u
      = some ((rest.map (fun e => e.occurredAt)).foldl min e₀.occurredAt) := by
    rw [firstTimestamp_of_filter _ u (mkRow e₀) (rest.map mkRow)
      (by rw [hfilter]; rfl)]
    have hmm : (rest.map mkRow).map (fun r => r.occurredAt)
        = rest.map (fun e => e.occurredAt) := by rw [List.map_map]; rfl
    rw [hmm]
    rfl
  have hbmd : batchMinDate (e₀ :: rest)
      = dateOf ((rest.map (fun e => e.occurredAt)).foldl min e₀.occurredAt) := by
    rw [foldl_min_dateOf, List.map_map]
    rfl
  have hMle : ∀ e ∈ e₀ :: rest,
      dateOf ((rest.map (fun e => e.occurredAt)).foldl min e₀.occurredAt)
        ≤ eventDateOf e := by
    intro e he
    refine dateOf_mono ?_
    rcases List.mem_cons.mp he with rfl | h2
    · exact foldl_min_le_init _ _
    · exact foldl_min_le_mem _ _ _ (List.mem_map_of_mem (fun x => x.occurredAt) h2)
  have hrow : ∀ e ∈ e₀ :: rest,
      mkRetentionRow (db.events ++ (e₀ :: rest).map mkRow) e
        = { userId := e.userId
            cohortDate := batchMinDate (e₀ :: rest)
            activityDate := eventDateOf e
            retentionDay := eventDateOf e - batchMinDate (e₀ :: rest) } := by
    intro e he
    simp only [mkRetentionRow, firstDate, hu e he, hft, Option.map_some',
      Option.getD_some, hbmd]
  have hret : (ingest_events now false db c (e₀ :: rest)).2.1.retention
      = insertRetentionRows db.retention
          ((e₀ :: rest).map
            (mkRetentionRow (db.events ++ (e₀ :: rest).map mkRow))) := by
    simp only [ingest_events, List.isEmpty_cons, Bool.false_eq_true, if_false,
      ite_false, hconf, update_retention_batch, ensure_users_batch_events,
      ensure_users_batch_retention]
  rw [hret, List.all_eq_true]
  intro r hr
  rcases mem_insertRetentionRows _ _ r hr with hmem | hmem
  · rw [Bool.or_eq_true]
    exact Or.inl (decide_eq_true hmem)
  · obtain ⟨e, he, rfl⟩ := List.mem_map.mp hmem
    rw [hrow e he, Bool.or_eq_true]
    right
    rw [Bool.and_eq_true]
    refine ⟨by simp, decide_eq_true ?_⟩
    simp only
    rw [← hbmd] at hMle
    have := hMle e he
    omega

/-- Witness for the C4 theorem: new user "u1", three events on days 100,
102, 101 (out of order) — the recorded rows have cohort date 100 (= D, the
batch minimum) and offsets 0, 2, 1. -/
theorem new_user_cohort_is_batch_min_date_witness :
    ((ingest_events 0 false ⟨[], [], []⟩ ⟨false, []⟩
        [⟨11, 8640005, "u1", "a", none⟩, ⟨12, 8812803, "u1", "a", none⟩,
         ⟨13, 8726409, "u1", "a", none⟩]).2.1.retention.all
      (fun r => decide (r ∈ ([] : List RetentionRow))
        || (r.cohortDate == batchMinDate
              [⟨11, 8640005, "u1", "a", none⟩, ⟨12, 8812803, "u1", "a", none⟩,
               ⟨13, 8726409, "u1", "a", none⟩]
            && decide (0 ≤ r.retentionDay)))) = true ∧
    (ingest_events 0 false ⟨[], [], []⟩ ⟨false, []⟩
        [⟨11, 8640005, "u1", "a", none⟩, ⟨12, 8812803, "u1", "a", none⟩,
         ⟨13, 8726409, "u1", "a", none⟩]).2.1.retention
      = [⟨"u1", 100, 100, 0⟩, ⟨"u1", 100, 102, 2⟩, ⟨"u1", 100, 101, 1⟩] :=
  ⟨new_user_cohort_is_batch_min_date 0 ⟨[], [], []⟩ ⟨false, []⟩ "u1"
      ⟨11, 8640005, "u1", "a", none⟩
      [⟨12, 8812803, "u1", "a", none⟩, ⟨13, 8726409, "u1", "a", none⟩]
      (by decide) (by decide) (by decide),
   by rfl⟩

/-- C7: (i) re-ingesting an already-processed batch (every event id already
stored) is a complete no-op — count 0, store unchanged, hence no additional
UserRetention rows; (ii) on every path of `ingest_events`, uniqueness of the
(user, cohort date, activity date) triple in the retention table is
preserved. -/
theorem reingest_noop_and_retention_triples_unique (now : Int) (f : Bool)
    (db : DB) (c : Cache) (es : List EventInput) :
    ((∀ e ∈ es, hasEventId db.events e.eventId = true) →
      ingest_events now false db c es = (Except.ok 0, db, c)) ∧
    (triplesUnique db.retention →
      triplesUnique (ingest_events now f db c es).2.1.retention) :=
  ⟨ingest_all_dup_noop now db c es,
   ingest_preserves_triple_uniqueness now f db c es⟩

/-- Witness for the C7 theorem: a store that already processed the
one-event batch; re-ingesting returns 0 and changes nothing, and triple
uniqueness holds afterwards. -/
theorem reingest_noop_and_retention_triples_unique_witness :
    ingest_events 0 false
        ⟨[⟨1, 8640000, "u1", "a", none, 100⟩],
         [⟨"u1", "User_u1", "u1@example.com", true, 0, 0⟩],
         [⟨"u1", 100, 100, 0⟩]⟩ ⟨false, []⟩
        [⟨1, 8640000, "u1", "a", none⟩]
      = (Except.ok 0,
         ⟨[⟨1, 8640000, "u1", "a", none, 100⟩],
          [⟨"u1", "User_u1", "u1@example.com", true, 0, 0⟩],
          [⟨"u1", 100, 100, 0⟩]⟩, ⟨false, []⟩) ∧
    triplesUnique
      (ingest_events 0 false
        ⟨[⟨1, 8640000, "u1", "a", none, 100⟩],
         [⟨"u1", "User_u1", "u1@example.com", true, 0, 0⟩],
         [⟨"u1", 100, 100, 0⟩]⟩ ⟨false, []⟩
        [⟨1, 8640000, "u1", "a", none⟩]).2.1.retention :=
  ⟨(reingest_noop_and_retention_triples_unique 0 false
      ⟨[⟨1, 8640000, "u1", "a", none, 100⟩],
       [⟨"u1", "User_u1", "u1@example.com", true, 0, 0⟩],
       [⟨"u1", 100, 100, 0⟩]⟩ ⟨false, []⟩
      [⟨1, 8640000, "u1", "a", none⟩]).1 (by decide),
   (reingest_noop_and_retention_triples_unique 0 false
      ⟨[⟨1, 8640000, "u1", "a", none, 100⟩],
       [⟨"u1", "User_u1", "u1@example.com", true, 0, 0⟩],
       [⟨"u1", 100, 100, 0⟩]⟩ ⟨false, []⟩
      [⟨1, 8640000, "u1", "a", none⟩]).2 (by decide)⟩

/-- C8: when the bulk insert of the batch violates the event-id uniqueness
constraint, `ingest_events` equals the per-event fallback applied to the
ORIGINAL store — the batch transaction is fully rolled back and none of its
Event/User/UserRetention writes survive — and any non-uniqueness error
instead aborts with count 0 and no retry, so the uniqueness conflict is the
only fallback path. -/
theorem integrity_error_full_rollback_then_fallback (now : Int) (db : DB)
    (c : Cache) (es : List EventInput)
    (hconf : hasBatchConflict db.events (es.map mkRow) = true) :
    ingest_events now false db c es
      = (Except.ok (insert_events_individual_simple now db es).1,
         (insert_events_individual_simple now db es).2.1,
         if (insert_events_individual_simple now db es).1 > 0 then
           invalidate_user_caches c (insert_events_individual_simple now db es).2.2
         else c) ∧
    ingest_events now true db c es = (Except.ok 0, db, c) := by
  refine ⟨?_, by cases es <;> rfl⟩
  have hne : es.isEmpty = false := by
    cases es with
    | nil => simp [hasBatchConflict, dupWithin] at hconf
    | cons e rest => rfl
  simp only [ingest_events, hne, Bool.false_eq_true, if_false, ite_false,
    hconf, if_true, ite_true]

/-- Witness for the C8 theorem at a one-duplicate batch. -/
theorem integrity_error_full_rollback_then_fallback_witness :
    ingest_events 0 false ⟨[⟨1, 8640000, "u0", "click", none, 100⟩], [], []⟩
        ⟨false, []⟩ [⟨1, 8640000, "u0", "click", none⟩]
      = (Except.ok
           (insert_events_individual_simple 0
             ⟨[⟨1, 8640000, "u0", "click", none, 100⟩], [], []⟩
             [⟨1, 8640000, "u0", "click", none⟩]).1,
         (insert_events_individual_simple 0
             ⟨[⟨1, 8640000, "u0", "click", none, 100⟩], [], []⟩
             [⟨1, 8640000, "u0", "click", none⟩]).2.1,
         if (insert_events_individual_simple 0
             ⟨[⟨1, 8640000, "u0", "click", none, 100⟩], [], []⟩
             [⟨1, 8640000, "u0", "click", none⟩]).1 > 0 then
           invalidate_user_caches ⟨false, []⟩
             (insert_events_individual_simple 0
               ⟨[⟨1, 8640000, "u0", "click", none, 100⟩], [], []⟩
               [⟨1, 8640000, "u0", "click", none⟩]).2.2
         else ⟨false, []⟩) ∧
    ingest_events 0 true ⟨[⟨1, 8640000, "u0", "click", none, 100⟩], [], []⟩
        ⟨false, []⟩ [⟨1, 8640000, "u0", "click", none⟩]
      = (Except.ok 0, ⟨[⟨1, 8640000, "u0", "click", none, 100⟩], [], []⟩,
         ⟨false, []⟩) :=
  integrity_error_full_rollback_then_fallback 0
    ⟨[⟨1, 8640000, "u0", "click", none, 100⟩], [], []⟩ ⟨false, []⟩
    [⟨1, 8640000, "u0", "click", none⟩] (by decide)

/-- C9 (amended): when the retention table does not exist or holds no rows,
and the requested date range matches no events, the cohort list is empty,
the retention curve is the zeroed structure with empty data, DAU and top
events return empty data lists — and none of these raise (all are total
returns) — while the per-user retention query also returns (never raises)
but yields the error-message dict rather than a zeroed structure. -/
theorem analytics_no_data_degrades_gracefully (db : AnalyticsDB) (lim : Nat)
    (today : Int) (startDate : Int) (w : Nat) (fromD toD : Int) (uid : String)
    (hr : db.retentionTableExists = false ∨ db.retention = [])
    (he : db.events.filter
      (fun r => fromD ≤ r.eventDate && r.eventDate ≤ toD) = []) :
    get_cohorts_list db lim today = [] ∧
    (get_retention_stats db startDate w).totalUsers = 0 ∧
    (get_retention_stats db startDate w).data = [] ∧
    (get_dau_stats db fromD toD).data = [] ∧
    (get_top_events db fromD toD lim).data = [] ∧
    isErrUserRetention (get_user_retention_data db uid) = true := by
  refine ⟨?_, ?_, ?_, ?_, ?_, ?_⟩
  · rcases hr with h | h
    · simp [get_cohorts_list, h]
    · by_cases ht : db.retentionTableExists
      · simp [get_cohorts_list, ht, h, dedupBy, sortLe]
      · simp [get_cohorts_list, ht]
  · rcases hr with h | h
    · simp [get_retention_stats, h]
    · by_cases ht : db.retentionTableExists
      · simp [get_retention_stats, ht, h, retainedUsersOn, dedupBy]
      · simp [get_retention_stats, ht]
  · rcases hr with h | h
    · simp [get_retention_stats, h]
    · by_cases ht : db.retentionTableExists
      · simp [get_retention_stats, ht, h, retainedUsersOn, dedupBy]
      · simp [get_retention_stats, ht]
  · simp only [get_dau_stats, he]
    simp [dedupBy, sortLe]
  · simp only [get_top_events, he]
    simp [dedupBy, sortLe]
  · rcases hr with h | h
    · simp [get_user_retention_data, h, isErrUserRetention]
    · by_cases ht : db.retentionTableExists
      · simp [get_user_retention_data, ht, h, sortLe, isErrUserRetention]
      · simp [get_user_retention_data, ht, isErrUserRetention]

/-- Witness for the amended C9 theorem against a store with no retention
table and no events. -/
theorem analytics_no_data_degrades_gracefully_witness :
    get_cohorts_list ⟨false, [], []⟩ 5 10 = [] ∧
    (get_retention_stats ⟨false, [], []⟩ 3 7).totalUsers = 0 ∧
    (get_retention_stats ⟨false, [], []⟩ 3 7).data = [] ∧
    (get_dau_stats ⟨false, [], []⟩ 0 9).data = [] ∧
    (get_top_events ⟨false, [], []⟩ 0 9 5).data = [] ∧
    isErrUserRetention (get_user_retention_data ⟨false, [], []⟩ "u1") = true :=
  analytics_no_data_degrades_gracefully ⟨false, [], []⟩ 5 10 3 7 0 9 "u1"
    (Or.inl rfl) rfl

/-- C10: after every call to the decorated `ingest_events` — empty batch,
injected store fault, or fallback run included — no cache key matching any
of the six global aggregate patterns survives, provided the cache client is
connected; the decorators run unconditionally after the body returns. -/
theorem aggregate_cache_invalidation_unconditional (now : Int) (f : Bool)
    (db : DB) (c : Cache) (es : List EventInput) (hc : c.connected = true) :
    ((ingest_events_decorated now f db c es).2.2.keys.all
      (fun k => aggPatterns.all (fun p => !(matchesPat p k)))) = true := by
  rw [List.all_eq_true]
  intro k hk
  rw [List.all_eq_true]
  intro p hp
  simp only [ingest_events_decorated] at hk
  have hcc : (ingest_events now f db c es).2.2.connected = true := by
    rw [ingest_cache_connected]; exact hc
  have hnm := foldl_deletePattern_no_match aggPatterns _ hcc k hk p hp
  simp [hnm]

/-- Witness for the C10 theorem: an empty batch against a connected cache
holding an aggregate key and an unrelated key. -/
theorem aggregate_cache_invalidation_unconditional_witness :
    ((ingest_events_decorated 0 false ⟨[], [], []⟩
        ⟨true, ["dau:2024", "unrelated"]⟩ []).2.2.keys.all
      (fun k => aggPatterns.all (fun p => !(matchesPat p k)))) = true :=
  aggregate_cache_invalidation_unconditional 0 false ⟨[], [], []⟩
    ⟨true, ["dau:2024", "unrelated"]⟩ [] rfl
